import Mathlib

/-!
Verification of the structured data-element tree of the EPICS OPC UA device
support, against its interface `devOpcuaSup/DataElement.h`.

The header declares an abstract class `DataElement`: concrete data members
(`name`, `pconnector`, `isleaf`, lines 224-226), two protected constructors
(lines 207-222), the concrete accessor `isLeaf` (line 54), and a set of pure
virtual operations (`readTimeStamp`, `readInt32`, `readUInt32`, `readFloat64`,
`readCString`, `readWasOk`, the write accessors, `clearIncomingData`,
`requestRecordProcessing`) plus the declared-but-not-defined
`setRecordConnector`.  Where a body is absent from the sources, the definition
below is modelled from the specification and says so in its doc comment.
-/

namespace DevOpcua

/-- A raw C++ pointer member as produced by a constructor: either it was
initialized (to a possibly-null pointer value), or it was omitted from the
member initializer list and is left indeterminate.  Pointers are modelled as
`Option Nat` identifiers, `none` standing for null. -/
inductive RawPtr where
  | indeterminate : RawPtr
  | value : Option Nat → RawPtr
deriving DecidableEq, Repr

/-- The concrete data members of class `DataElement`
(`DataElement.h` lines 224-226): element name, pointer to the record
connector (meaningful for leaves), and the leaf flag. -/
structure DataElementBase where
  name : String
  pconnector : RawPtr
  isleaf : Bool
deriving DecidableEq, Repr

/-- The node constructor (`DataElement.h` lines 207-210):
`DataElement(const std::string &name = "") : name(name), isleaf(false) {}`.
Its initializer list sets `name` and `isleaf` only; `pconnector` is not
initialized and is therefore indeterminate, not null. -/
def mkNodeElement (name : String) : DataElementBase :=
  { name := name, pconnector := RawPtr.indeterminate, isleaf := false }

/-- The leaf constructor (`DataElement.h` lines 218-222):
initializes `name`, `pconnector` (to the supplied connector pointer) and
sets `isleaf` to true. -/
def mkLeafElement (pconnector : Option Nat) (name : String) : DataElementBase :=
  { name := name, pconnector := RawPtr.value pconnector, isleaf := true }

/-- `DataElement::isLeaf` (`DataElement.h` line 54): returns the `isleaf`
member.  A total function of the element state. -/
def DataElementBase.isLeaf (e : DataElementBase) : Bool := e.isleaf

/-- Error kinds of the read/write accessors, from the spec's error taxonomy:
no-data, conversion error, and type-mismatch (operation on the wrong
variant).  The header documents the first two as the causes of
`std::runtime_error` on the read accessors. -/
inductive RWError where
  | noData : RWError
  | conversion : RWError
  | typeMismatch : RWError
deriving DecidableEq, Repr

/-- Modelled from the spec: the body of `DataElement::setRecordConnector` is
declared at `DataElement.h` line 66 but not defined in the sources.  Its
effect on the element's own members: on a leaf it sets the `pconnector`
member to the new connector; on a non-leaf it fails with a type-mismatch
(precondition violation) and changes nothing.  The variant flag is never
touched. -/
def DataElementBase.setRecordConnectorSelf (e : DataElementBase) (c : Nat) :
    Except RWError DataElementBase :=
  if e.isleaf then Except.ok { e with pconnector := RawPtr.value (some c) }
  else Except.error RWError.typeMismatch

/-- C2: the leaf flag is fixed at construction — false by the node
constructor, true by the leaf constructor — `isLeaf` merely returns it, and
the only modelled operation that touches the base members
(`setRecordConnectorSelf`) preserves it; `isLeaf` is total by construction. -/
theorem isLeaf_fixed_at_construction :
    (∀ n : String, (mkNodeElement n).isLeaf = false)
    ∧ (∀ (c : Option Nat) (n : String), (mkLeafElement c n).isLeaf = true)
    ∧ (∀ (e e2 : DataElementBase) (c : Nat),
        e.setRecordConnectorSelf c = Except.ok e2 → e2.isLeaf = e.isLeaf) := by
  refine ⟨fun n => rfl, fun c n => rfl, fun e e2 c h => ?_⟩
  unfold DataElementBase.setRecordConnectorSelf at h
  by_cases hl : e.isleaf = true
  · simp [hl] at h
    subst h
    simp [DataElementBase.isLeaf, hl]
  · simp [hl] at h

/-- Witness for `isLeaf_fixed_at_construction` at concrete inputs. -/
theorem isLeaf_fixed_at_construction_witness :
    (mkNodeElement "Status").isLeaf = false
    ∧ (mkLeafElement (some 7) "Enabled").isLeaf = true :=
  ⟨isLeaf_fixed_at_construction.1 "Status",
   isLeaf_fixed_at_construction.2.1 (some 7) "Enabled"⟩

/-- C8 counterexample: the claim that a node's connector pointer is null at
construction is false — the node constructor's initializer list omits
`pconnector`, so the member is left indeterminate, not set to null. -/
theorem node_pconnector_not_null :
    (mkNodeElement "Status").pconnector ≠ RawPtr.value none := by
  decide

/-- C8 (amended): the node constructor establishes no connector link — the
`pconnector` member is left uninitialized (indeterminate), never set to any
connector — and the modelled `setRecordConnector` refuses to act on a
non-leaf, leaving a node's members unchanged. -/
theorem node_has_no_connector_link (n : String) (c : Nat) :
    (mkNodeElement n).pconnector = RawPtr.indeterminate
    ∧ (∀ p : Option Nat, (mkNodeElement n).pconnector ≠ RawPtr.value p)
    ∧ (mkNodeElement n).setRecordConnectorSelf c
        = Except.error RWError.typeMismatch := by
  refine ⟨rfl, fun p h => by simp [mkNodeElement] at h, rfl⟩

/-- The link relation between leaves and record connectors, both identified
by natural-number identifiers: each leaf's connector pointer and each
connector's back-pointer to a leaf (`none` stands for a null pointer). -/
structure LinkWorld where
  leafConn : Nat → Option Nat
  connLeaf : Nat → Option Nat

/-- Modelled from the spec: step (1) of the binding sequence of §4.3 — if
the leaf `L` already has a connector, clear that connector's back-reference. -/
def unlinkLeafSide (w : LinkWorld) (L : Nat) : LinkWorld :=
  match w.leafConn L with
  | some c1 => { w with connLeaf := fun x => if x = c1 then none else w.connLeaf x }
  | none => w

/-- Modelled from the spec: step (2) of the binding sequence of §4.3 — if
the new connector `c` already points to a different leaf, clear that leaf's
connector reference. -/
def unlinkConnectorSide (w : LinkWorld) (L c : Nat) : LinkWorld :=
  match w.connLeaf c with
  | some Lp =>
      if Lp = L then w
      else { w with leafConn := fun x => if x = Lp then none else w.leafConn x }
  | none => w

/-- Modelled from the spec: the body of `DataElement::setRecordConnector`
(declared `DataElement.h` line 66, not defined in the sources) on the link
relation, following §4.3: tear down the leaf's existing link, tear down the
connector's existing link to a different leaf, then set the new mutual
pointers. -/
def setRecordConnector (w : LinkWorld) (L c : Nat) : LinkWorld :=
  { leafConn := fun x =>
      if x = L then some c
      else (unlinkConnectorSide (unlinkLeafSide w L) L c).leafConn x
    connLeaf := fun x =>
      if x = c then some L
      else (unlinkConnectorSide (unlinkLeafSide w L) L c).connLeaf x }

/-- The mutual-link invariant of the spec: no leaf is linked to a connector
that does not point back to it, and no connector points to a leaf that does
not point back to it. -/
def MutualLinks (w : LinkWorld) : Prop :=
  (∀ l c, w.leafConn l = some c → w.connLeaf c = some l)
  ∧ (∀ c l, w.connLeaf c = some l → w.leafConn l = some c)

theorem uls_leafConn (w : LinkWorld) (L : Nat) :
    (unlinkLeafSide w L).leafConn = w.leafConn := by
  unfold unlinkLeafSide
  rcases w.leafConn L with _ | c1 <;> rfl

theorem uls_connLeaf (w : LinkWorld) (L x : Nat) :
    (unlinkLeafSide w L).connLeaf x =
      if w.leafConn L = some x then none else w.connLeaf x := by
  unfold unlinkLeafSide
  rcases h : w.leafConn L with _ | c1
  · simp
  · by_cases hx : x = c1
    · subst hx
      simp
    · simp only [Option.some.injEq]
      rw [if_neg hx, if_neg (fun hh => hx hh.symm)]

theorem ucs_connLeaf (w : LinkWorld) (L c : Nat) :
    (unlinkConnectorSide w L c).connLeaf = w.connLeaf := by
  unfold unlinkConnectorSide
  rcases w.connLeaf c with _ | Lp
  · rfl
  · by_cases h : Lp = L <;> simp [h]

theorem ucs_leafConn (w : LinkWorld) (L c x : Nat) (hx : x ≠ L) :
    (unlinkConnectorSide w L c).leafConn x =
      if w.connLeaf c = some x then none else w.leafConn x := by
  unfold unlinkConnectorSide
  split
  · next Lp heq =>
      rw [heq]
      by_cases hL : Lp = L
      · rw [if_pos hL]
        rw [if_neg (fun hh : some Lp = some x =>
              hx ((Option.some.inj hh).symm.trans hL))]
      · rw [if_neg hL]
        show (if x = Lp then none else w.leafConn x)
            = if some Lp = some x then none else w.leafConn x
        by_cases hxp : x = Lp
        · rw [if_pos hxp, if_pos (by rw [hxp])]
        · rw [if_neg hxp, if_neg (fun hh => hxp (Option.some.inj hh).symm)]
  · next heq =>
      rw [heq]
      simp

theorem setRecordConnector_connLeaf (w : LinkWorld) (L c x : Nat) :
    (setRecordConnector w L c).connLeaf x =
      if x = c then some L
      else if w.leafConn L = some x then none
      else w.connLeaf x := by
  show (if x = c then some L
      else (unlinkConnectorSide (unlinkLeafSide w L) L c).connLeaf x) = _
  by_cases hx : x = c
  · rw [if_pos hx, if_pos hx]
  · rw [if_neg hx, if_neg hx, ucs_connLeaf, uls_connLeaf]

theorem setRecordConnector_leafConn (w : LinkWorld) (L c x : Nat) :
    (setRecordConnector w L c).leafConn x =
      if x = L then some c
      else if (unlinkLeafSide w L).connLeaf c = some x then none
      else w.leafConn x := by
  show (if x = L then some c
      else (unlinkConnectorSide (unlinkLeafSide w L) L c).leafConn x) = _
  by_cases hx : x = L
  · rw [if_pos hx, if_pos hx]
  · rw [if_neg hx, if_neg hx, ucs_leafConn _ _ _ _ hx, uls_leafConn]

/-- C1: after `setRecordConnector(c)` on leaf `L`, the leaf's connector
pointer equals `c` and the connector's back-pointer equals `L`; any
previously bound connector `c1 ≠ c` ends with its back-reference cleared to
null; and the mutual-link invariant — no leaf is linked to a connector that
does not point back to it, and vice versa — is preserved. -/
theorem setRecordConnector_binds (w : LinkWorld) (L c : Nat)
    (hinv : MutualLinks w) :
    (setRecordConnector w L c).leafConn L = some c
    ∧ (setRecordConnector w L c).connLeaf c = some L
    ∧ (∀ c1, w.leafConn L = some c1 → c1 ≠ c →
        (setRecordConnector w L c).connLeaf c1 = none)
    ∧ MutualLinks (setRecordConnector w L c) := by
  obtain ⟨inv1, inv2⟩ := hinv
  refine ⟨?_, ?_, ?_, ?_⟩
  · rw [setRecordConnector_leafConn, if_pos rfl]
  · rw [setRecordConnector_connLeaf, if_pos rfl]
  · intro c1 h1 hne
    rw [setRecordConnector_connLeaf, if_neg hne, if_pos h1]
  · unfold MutualLinks
    constructor
    · intro l cc h
      rw [setRecordConnector_leafConn] at h
      rw [setRecordConnector_connLeaf]
      by_cases hl : l = L
      · rw [if_pos hl] at h
        obtain rfl : c = cc := Option.some.inj h
        rw [if_pos rfl, hl]
      · rw [if_neg hl, uls_connLeaf] at h
        by_cases hb : (if w.leafConn L = some c then none else w.connLeaf c) = some l
        · rw [if_pos hb] at h
          exact absurd h (by simp)
        · rw [if_neg hb] at h
          by_cases hcc : cc = c
          · subst hcc
            have hBc := inv1 l cc h
            by_cases hALc : w.leafConn L = some cc
            · have hBL := inv1 L cc hALc
              rw [hBc] at hBL
              exact absurd (Option.some.inj hBL) hl
            · rw [if_neg hALc] at hb
              exact absurd hBc hb
          · rw [if_neg hcc]
            by_cases hAL : w.leafConn L = some cc
            · have h5 := inv1 L cc hAL
              have h6 := inv1 l cc h
              rw [h5] at h6
              exact absurd (Option.some.inj h6).symm hl
            · rw [if_neg hAL]
              exact inv1 l cc h
    · intro cc l h
      rw [setRecordConnector_connLeaf] at h
      by_cases hc2 : cc = c
      · rw [if_pos hc2] at h
        obtain rfl : L = l := Option.some.inj h
        rw [setRecordConnector_leafConn, if_pos rfl, hc2]
      · rw [if_neg hc2] at h
        by_cases hAL : w.leafConn L = some cc
        · rw [if_pos hAL] at h
          exact absurd h (by simp)
        · rw [if_neg hAL] at h
          have h2 := inv2 cc l h
          rw [setRecordConnector_leafConn]
          by_cases hl : l = L
          · rw [hl] at h2
            exact absurd h2 hAL
          · rw [if_neg hl, uls_connLeaf]
            by_cases hALc : w.leafConn L = some c
            · rw [if_pos hALc, if_neg (by simp : ¬ (none : Option Nat) = some l)]
              exact h2
            · rw [if_neg hALc]
              by_cases hBc : w.connLeaf c = some l
              · have h3 := inv2 c l hBc
                rw [h2] at h3
                exact absurd (Option.some.inj h3) hc2
              · rw [if_neg hBc]
                exact h2

/-- The empty link relation: no leaf bound, no connector bound. -/
def emptyLinkWorld : LinkWorld :=
  { leafConn := fun _ => none, connLeaf := fun _ => none }

/-- Witness for `setRecordConnector_binds` on the empty link relation,
binding leaf 0 to connector 5. -/
theorem setRecordConnector_binds_witness :
    (setRecordConnector emptyLinkWorld 0 5).leafConn 0 = some 5
    ∧ (setRecordConnector emptyLinkWorld 0 5).connLeaf 5 = some 0 := by
  have hm : MutualLinks emptyLinkWorld := by
    unfold MutualLinks
    constructor
    · intro l c h
      simp [emptyLinkWorld] at h
    · intro c l h
      simp [emptyLinkWorld] at h
  have h := setRecordConnector_binds emptyLinkWorld 0 5 hm
  exact ⟨h.1, h.2.1⟩

/-- EPICS time stamp (`epicsTimeStamp` from `epicsTime.h`, not among the
sources): seconds past epoch and nanoseconds. -/
structure EpicsTimeStamp where
  secPastEpoch : Nat
  nsec : Nat
deriving DecidableEq, Repr

/-- Modelled from the spec: the protocol's native tagged scalar value as
delivered by the excluded protocol layer (spec §2, Scalar Codec).  The
64-bit float is modelled exactly by a rational number. -/
inductive NativeValue where
  | vInt32 : Int → NativeValue
  | vUInt32 : Nat → NativeValue
  | vFloat64 : Rat → NativeValue
  | vString : String → NativeValue
deriving DecidableEq, Repr

def int32Min : Int := -2147483648
def int32Max : Int := 2147483647
def uint32Max : Int := 4294967295

/-- Modelled from the spec: Scalar Codec, decode direction into the canonical
signed 32-bit integer — fails (`none`) when the native value cannot be
represented losslessly (out of range, non-integral float, non-numeric
string). -/
def int32OfNative : NativeValue → Option Int
  | NativeValue.vInt32 v => some v
  | NativeValue.vUInt32 v => if (v : Int) ≤ int32Max then some (v : Int) else none
  | NativeValue.vFloat64 q =>
      if q.den = 1 ∧ int32Min ≤ q.num ∧ q.num ≤ int32Max then some q.num else none
  | NativeValue.vString s =>
      match s.toInt? with
      | some v => if int32Min ≤ v ∧ v ≤ int32Max then some v else none
      | none => none

/-- Modelled from the spec: Scalar Codec, decode direction into the canonical
unsigned 32-bit integer. -/
def uint32OfNative : NativeValue → Option Nat
  | NativeValue.vInt32 v => if 0 ≤ v ∧ v ≤ uint32Max then some v.toNat else none
  | NativeValue.vUInt32 v => some v
  | NativeValue.vFloat64 q =>
      if q.den = 1 ∧ 0 ≤ q.num ∧ q.num ≤ uint32Max then some q.num.toNat else none
  | NativeValue.vString s =>
      match s.toInt? with
      | some v => if 0 ≤ v ∧ v ≤ uint32Max then some v.toNat else none
      | none => none

/-- Modelled from the spec: Scalar Codec, decode direction into the canonical
64-bit float (every native numeric value embeds; a non-numeric string
fails). -/
def float64OfNative : NativeValue → Option Rat
  | NativeValue.vInt32 v => some (v : Rat)
  | NativeValue.vUInt32 v => some (v : Rat)
  | NativeValue.vFloat64 q => some q
  | NativeValue.vString s =>
      match s.toInt? with
      | some v => some (v : Rat)
      | none => none

/-- Modelled from the spec: Scalar Codec, rendering the native value as text
for the C-string read accessor. -/
def cStringOfNative : NativeValue → String
  | NativeValue.vInt32 v => toString v
  | NativeValue.vUInt32 v => toString v
  | NativeValue.vFloat64 q =>
      toString q.num ++ (if q.den = 1 then "" else "/" ++ toString q.den)
  | NativeValue.vString s => s

/-- Modelled from the spec (§4.4): one incoming update as stored by Update
Delivery — the decoded value, its two time stamps, and the service-level
status. -/
structure Update where
  value : NativeValue
  deviceTime : EpicsTimeStamp
  serverTime : EpicsTimeStamp
  serviceOk : Bool
deriving DecidableEq, Repr

/-- Modelled from the spec: the mutable content of a concrete leaf element
(the concrete leaf classes are not among the sources): the incoming FIFO
queue — head is the oldest, currently exposed element (a latest-value cell is
a queue of depth 1, §4.2) — plus the pending outgoing value and the write
status flag. -/
structure LeafState where
  incoming : List Update
  outgoing : Option NativeValue
  writeOk : Bool
deriving DecidableEq, Repr

/-- Modelled from the spec: `DataElement::readTimeStamp` (pure virtual,
`DataElement.h` line 89): `server = true` selects the server time stamp,
`false` the device time stamp; a never-populated leaf has no stamp (no-data
error). -/
def readTimeStamp (s : LeafState) (server : Bool) : Except RWError EpicsTimeStamp :=
  match s.incoming.head? with
  | none => Except.error RWError.noData
  | some u => Except.ok (if server then u.serverTime else u.deviceTime)

/-- Modelled from the spec: `DataElement::readInt32` (pure virtual, line 98):
no-data error when nothing was ever received, conversion error when the
exposed native value cannot be represented as Int32. -/
def readInt32 (s : LeafState) : Except RWError Int :=
  match s.incoming.head? with
  | none => Except.error RWError.noData
  | some u =>
      match int32OfNative u.value with
      | some v => Except.ok v
      | none => Except.error RWError.conversion

/-- Modelled from the spec: `DataElement::readUInt32` (pure virtual,
line 107). -/
def readUInt32 (s : LeafState) : Except RWError Nat :=
  match s.incoming.head? with
  | none => Except.error RWError.noData
  | some u =>
      match uint32OfNative u.value with
      | some v => Except.ok v
      | none => Except.error RWError.conversion

/-- Modelled from the spec: `DataElement::readFloat64` (pure virtual,
line 116). -/
def readFloat64 (s : LeafState) : Except RWError Rat :=
  match s.incoming.head? with
  | none => Except.error RWError.noData
  | some u =>
      match float64OfNative u.value with
      | some v => Except.ok v
      | none => Except.error RWError.conversion

def nulChar : Char := Char.ofNat 0

/-- Modelled from the spec: `DataElement::readCString` (pure virtual,
line 128): renders the exposed value and copies at most `num - 1` characters
plus the terminating NUL into the caller's buffer of `num` bytes. -/
def readCString (s : LeafState) (num : Nat) : Except RWError (List Char) :=
  match s.incoming.head? with
  | none => Except.error RWError.noData
  | some u => Except.ok ((cStringOfNative u.value).toList.take (num - 1) ++ [nulChar])

/-- Modelled from the spec: `DataElement::readWasOk` (pure virtual,
line 135): status of the last read service, a flag, not an exception. -/
def readWasOk (s : LeafState) : Bool :=
  match s.incoming.head? with
  | none => false
  | some u => u.serviceOk

/-- Modelled from the spec: `DataElement::clearIncomingData` (pure virtual,
line 191): removes the current (= oldest) element of the incoming queue,
allowing access to the next element with the next processing. -/
def clearIncomingData (s : LeafState) : LeafState :=
  { s with incoming := s.incoming.tail }

/-- One invocation of a read accessor, for stating frame properties. -/
inductive ReadOp where
  | opTimeStamp : Bool → ReadOp
  | opInt32 : ReadOp
  | opUInt32 : ReadOp
  | opFloat64 : ReadOp
  | opCString : Nat → ReadOp
  | opWasOk : ReadOp
deriving DecidableEq, Repr

/-- The (heterogeneous) result of one read accessor. -/
inductive ReadResult where
  | rTime : EpicsTimeStamp → ReadResult
  | rInt : Int → ReadResult
  | rUInt : Nat → ReadResult
  | rFloat : Rat → ReadResult
  | rChars : List Char → ReadResult
  | rBool : Bool → ReadResult
  | rError : RWError → ReadResult
deriving DecidableEq, Repr

def exceptToResult {α : Type} (f : α → ReadResult) : Except RWError α → ReadResult
  | Except.error e => ReadResult.rError e
  | Except.ok v => f v

/-- Modelled from the const qualifiers on `DataElement.h` lines 89-135 and
the spec: invoking one read accessor on a leaf returns its result together
with the leaf state after the call. -/
def runReadOp (o : ReadOp) (s : LeafState) : ReadResult × LeafState :=
  match o with
  | ReadOp.opTimeStamp b => (exceptToResult ReadResult.rTime (readTimeStamp s b), s)
  | ReadOp.opInt32 => (exceptToResult ReadResult.rInt (readInt32 s), s)
  | ReadOp.opUInt32 => (exceptToResult ReadResult.rUInt (readUInt32 s), s)
  | ReadOp.opFloat64 => (exceptToResult ReadResult.rFloat (readFloat64 s), s)
  | ReadOp.opCString num => (exceptToResult ReadResult.rChars (readCString s num), s)
  | ReadOp.opWasOk => (ReadResult.rBool (readWasOk s), s)

theorem runReadOp_state (o : ReadOp) (s : LeafState) : (runReadOp o s).2 = s := by
  cases o <;> rfl

/-- C3: on a never-populated leaf each numeric read accessor fails with the
no-data error; when the exposed native value cannot be converted to the
requested canonical type, the accessor fails with the conversion error; and
every read leaves the leaf's stored state — the raw incoming value
included — unchanged. -/
theorem read_accessors_fail_safely (s t : LeafState) (u : Update)
    (rest : List Update)
    (hempty : t.incoming = []) (hcons : s.incoming = u :: rest) :
    (readInt32 t = Except.error RWError.noData
      ∧ readUInt32 t = Except.error RWError.noData
      ∧ readFloat64 t = Except.error RWError.noData)
    ∧ (int32OfNative u.value = none →
        readInt32 s = Except.error RWError.conversion)
    ∧ (uint32OfNative u.value = none →
        readUInt32 s = Except.error RWError.conversion)
    ∧ (float64OfNative u.value = none →
        readFloat64 s = Except.error RWError.conversion)
    ∧ (∀ o : ReadOp, (runReadOp o s).2 = s ∧ (runReadOp o t).2 = t) := by
  refine ⟨⟨?_, ?_, ?_⟩, ?_, ?_, ?_, fun o => ⟨runReadOp_state o s, runReadOp_state o t⟩⟩
  · simp [readInt32, hempty]
  · simp [readUInt32, hempty]
  · simp [readFloat64, hempty]
  · intro h
    simp [readInt32, hcons, h]
  · intro h
    simp [readUInt32, hcons, h]
  · intro h
    simp [readFloat64, hcons, h]

def sampleStamp : EpicsTimeStamp := ⟨1000, 5⟩

def halfUpdate : Update :=
  ⟨NativeValue.vFloat64 (mkRat 7 2), sampleStamp, sampleStamp, true⟩

def emptyLeaf : LeafState := ⟨[], none, false⟩

def halfLeaf : LeafState := ⟨[halfUpdate], none, false⟩

/-- Witness for `read_accessors_fail_safely`: the empty leaf reads as
no-data and the non-integral float 7/2 (= 3.5) read as Int32 is a
conversion error. -/
theorem read_accessors_fail_safely_witness :
    readInt32 emptyLeaf = Except.error RWError.noData
    ∧ readInt32 halfLeaf = Except.error RWError.conversion := by
  have h := read_accessors_fail_safely halfLeaf emptyLeaf halfUpdate [] rfl rfl
  exact ⟨h.1.1, h.2.1 (by decide)⟩

/-- C4: `clearIncomingData` removes exactly the oldest (currently exposed)
queue element, leaving the rest of the state intact; after clearing a
one-element queue the leaf reads as no-data; after clearing a longer queue
the next-oldest element is exposed; on an empty (never populated) leaf it is
a no-op that changes nothing. -/
theorem clearIncomingData_dequeues (s : LeafState) :
    (∀ u rest, s.incoming = u :: rest →
        clearIncomingData s = { s with incoming := rest })
    ∧ (s.incoming = [] → clearIncomingData s = s)
    ∧ (∀ u, s.incoming = [u] →
        readInt32 (clearIncomingData s) = Except.error RWError.noData
        ∧ readTimeStamp (clearIncomingData s) true = Except.error RWError.noData)
    ∧ (∀ u1 u2 rest, s.incoming = u1 :: u2 :: rest →
        readTimeStamp (clearIncomingData s) true = Except.ok u2.serverTime) := by
  refine ⟨?_, ?_, ?_, ?_⟩
  · intro u rest h
    simp [clearIncomingData, h]
  · intro h
    obtain ⟨inc, out, wok⟩ := s
    simp_all [clearIncomingData]
  · intro u h
    constructor
    · simp [clearIncomingData, readInt32, h]
    · simp [clearIncomingData, readTimeStamp, h]
  · intro u1 u2 rest h
    simp [clearIncomingData, readTimeStamp, h]

/-- Witness for `clearIncomingData_dequeues`: clearing the one-element queue
holding 7/2 leaves an empty queue that reads as no-data, and clearing the
empty leaf changes nothing. -/
theorem clearIncomingData_dequeues_witness :
    clearIncomingData halfLeaf = { halfLeaf with incoming := [] }
    ∧ clearIncomingData emptyLeaf = emptyLeaf
    ∧ readInt32 (clearIncomingData halfLeaf) = Except.error RWError.noData := by
  have h1 := (clearIncomingData_dequeues halfLeaf).1 halfUpdate [] rfl
  have h2 := (clearIncomingData_dequeues emptyLeaf).2.1 rfl
  have h3 := ((clearIncomingData_dequeues halfLeaf).2.2.1 halfUpdate rfl).1
  exact ⟨h1, h2, h3⟩

/-- C5: `readCString` with a buffer of `num ≥ 1` bytes either fails with the
no-data error (never-populated leaf) or succeeds with a non-empty buffer
content of at most `num` bytes whose last byte is the NUL terminator — it
never writes past the buffer. -/
theorem readCString_bounded (s : LeafState) (num : Nat) (h : 1 ≤ num) :
    (s.incoming = [] → readCString s num = Except.error RWError.noData)
    ∧ (∀ out, readCString s num = Except.ok out →
        out.length ≤ num ∧ out ≠ [] ∧ out.getLast? = some nulChar) := by
  constructor
  · intro he
    simp [readCString, he]
  · intro out hout
    rcases hh : s.incoming.head? with _ | u
    · simp [readCString, hh] at hout
    · simp only [readCString, hh, Except.ok.injEq] at hout
      subst hout
      refine ⟨?_, by simp, by simp⟩
      have hlen : ((cStringOfNative u.value).toList.take (num - 1)).length ≤ num - 1 :=
        List.length_take_le _ _
      calc ((cStringOfNative u.value).toList.take (num - 1) ++ [nulChar]).length
          = ((cStringOfNative u.value).toList.take (num - 1)).length + 1 := by simp
        _ ≤ (num - 1) + 1 := by omega
        _ = num := by omega

def strLeaf : LeafState :=
  ⟨[⟨NativeValue.vString "TOOLONG", sampleStamp, sampleStamp, true⟩], none, false⟩

/-- Witness for `readCString_bounded`: reading the 7-character value
"TOOLONG" into a 4-byte buffer yields exactly "TOO" plus the NUL terminator,
4 bytes, within bounds. -/
theorem readCString_bounded_witness :
    (String.toList "TOO" ++ [nulChar]).length ≤ 4
    ∧ (String.toList "TOO" ++ [nulChar]).getLast? = some nulChar := by
  have h := (readCString_bounded strLeaf 4 (by decide)).2
    (String.toList "TOO" ++ [nulChar]) rfl
  exact ⟨h.1, h.2.2⟩

/-- C7: on a populated leaf `readTimeStamp` returns the server-origin stamp
for `server = true` and the device-origin stamp for `server = false`, the
two being independently stored values of the exposed update; on a
never-populated leaf it fails with the no-data error either way. -/
theorem readTimeStamp_selects (s t : LeafState) (u : Update)
    (rest : List Update)
    (hcons : s.incoming = u :: rest) (hempty : t.incoming = []) :
    readTimeStamp s true = Except.ok u.serverTime
    ∧ readTimeStamp s false = Except.ok u.deviceTime
    ∧ readTimeStamp t true = Except.error RWError.noData
    ∧ readTimeStamp t false = Except.error RWError.noData := by
  refine ⟨?_, ?_, ?_, ?_⟩ <;> simp [readTimeStamp, hcons, hempty]

def twoStampUpdate : Update :=
  ⟨NativeValue.vInt32 3, ⟨10, 0⟩, ⟨20, 0⟩, true⟩

def twoStampLeaf : LeafState := ⟨[twoStampUpdate], none, false⟩

/-- Witness for `readTimeStamp_selects`: a leaf holding device stamp 10s and
server stamp 20s returns each one under the matching flag, and the empty
leaf fails. -/
theorem readTimeStamp_selects_witness :
    readTimeStamp twoStampLeaf true = Except.ok ⟨20, 0⟩
    ∧ readTimeStamp twoStampLeaf false = Except.ok ⟨10, 0⟩
    ∧ readTimeStamp emptyLeaf true = Except.error RWError.noData := by
  have h := readTimeStamp_selects twoStampLeaf emptyLeaf twoStampUpdate [] rfl rfl
  exact ⟨h.1, h.2.1, h.2.2.1⟩

/-- C10: every read accessor (`readTimeStamp`, `readInt32`, `readUInt32`,
`readFloat64`, `readCString`, `readWasOk`) is a const observation: running
it returns the leaf state — incoming queue, outgoing slot and status flag —
unchanged; only `clearIncomingData` removes the exposed element. -/
theorem read_accessors_const (o : ReadOp) (s : LeafState) :
    (runReadOp o s).2 = s
    ∧ (runReadOp o s).2.incoming = s.incoming
    ∧ (∀ u rest, s.incoming = u :: rest → (clearIncomingData s).incoming = rest) := by
  refine ⟨runReadOp_state o s, by rw [runReadOp_state], ?_⟩
  intro u rest h
  simp [clearIncomingData, h]

/-- Witness for `read_accessors_const`: reading Int32 from the leaf holding
7/2 leaves its state intact. -/
theorem read_accessors_const_witness :
    (runReadOp ReadOp.opInt32 halfLeaf).2 = halfLeaf :=
  (read_accessors_const ReadOp.opInt32 halfLeaf).1

/-- Modelled from the spec: the `ProcessReason` enumeration from
`devOpcua.h` (not among the sources); §6 requires at least a value-update
and a connection-state-change reason, passed opaquely through
`requestRecordProcessing`. -/
inductive ProcessReason where
  | incomingData : ProcessReason
  | connectionLoss : ProcessReason
deriving DecidableEq, Repr

/-- Modelled from the spec (§3): the element tree — a leaf (name, optional
bound connector, leaf content) or a node owning an ordered list of child
elements. -/
inductive DElem where
  | leafElem : String → Option Nat → LeafState → DElem
  | nodeElem : String → List DElem → DElem

mutual

/-- Modelled from the spec: `DataElement::requestRecordProcessing` (pure
virtual, `DataElement.h` line 196): a leaf notifies its single bound
connector with the reason (nobody if unbound); a node recurses over all its
children in order. -/
def requestRecordProcessing : DElem → ProcessReason → List (Nat × ProcessReason)
  | DElem.leafElem _ (some c) _, r => [(c, r)]
  | DElem.leafElem _ none _, _ => []
  | DElem.nodeElem _ cs, r => requestRecordProcessingList cs r

def requestRecordProcessingList : List DElem → ProcessReason → List (Nat × ProcessReason)
  | [], _ => []
  | e :: rest, r => requestRecordProcessing e r ++ requestRecordProcessingList rest r

end

mutual

/-- The connectors bound to leaves of a sub-tree, in traversal order —
written from the spec's words: every connector bound under this sub-tree. -/
def specBoundConnectors : DElem → List Nat
  | DElem.leafElem _ co _ => co.toList
  | DElem.nodeElem _ cs => specBoundConnectorsList cs

def specBoundConnectorsList : List DElem → List Nat
  | [] => []
  | e :: rest => specBoundConnectors e ++ specBoundConnectorsList rest

end

mutual

theorem requestRecordProcessing_eq (e : DElem) (r : ProcessReason) :
    requestRecordProcessing e r = (specBoundConnectors e).map (fun c => (c, r)) := by
  match e with
  | DElem.leafElem n (some c) st => rfl
  | DElem.leafElem n none st => rfl
  | DElem.nodeElem n cs =>
      rw [requestRecordProcessing, specBoundConnectors]
      exact requestRecordProcessingList_eq cs r

theorem requestRecordProcessingList_eq (cs : List DElem) (r : ProcessReason) :
    requestRecordProcessingList cs r
      = (specBoundConnectorsList cs).map (fun c => (c, r)) := by
  match cs with
  | [] => rfl
  | e :: rest =>
      rw [requestRecordProcessingList, specBoundConnectorsList, List.map_append,
          requestRecordProcessing_eq e r, requestRecordProcessingList_eq rest r]

end

/-- Modelled from the spec (§4.4): Update Delivery into one leaf — store the
update at the back of the leaf's incoming queue and raise the processing
request for that leaf alone. -/
def deliverToLeaf (name : String) (conn : Option Nat) (st : LeafState)
    (u : Update) (r : ProcessReason) : DElem × List (Nat × ProcessReason) :=
  let e2 := DElem.leafElem name conn { st with incoming := st.incoming ++ [u] }
  (e2, requestRecordProcessing e2 r)

/-- C6: `requestRecordProcessing` notifies exactly the connectors bound to
leaves of the sub-tree: a bound leaf notifies its single connector once with
the given reason, an unbound leaf notifies nobody, and a node collects the
notifications of all leaves below it; delivering one update to one bound
leaf raises exactly one notification, on that leaf's connector. -/
theorem requestRecordProcessing_notifies (n : String) (c : Nat)
    (st : LeafState) (u : Update) (r : ProcessReason) :
    (∀ e : DElem, requestRecordProcessing e r
        = (specBoundConnectors e).map (fun x => (x, r)))
    ∧ requestRecordProcessing (DElem.leafElem n (some c) st) r = [(c, r)]
    ∧ requestRecordProcessing (DElem.leafElem n none st) r = []
    ∧ (deliverToLeaf n (some c) st u r).2 = [(c, r)]
    ∧ (deliverToLeaf n none st u r).2 = [] := by
  refine ⟨fun e => requestRecordProcessing_eq e r, rfl, rfl, rfl, rfl⟩

/-- The spec's concrete scenario tree: `Motor1` with `Position` bound to
connector 1, `Status.Enabled` bound to connector 2, `Status.Code` unbound. -/
def motorTree : DElem :=
  DElem.nodeElem ""
    [DElem.leafElem "Position" (some 1) emptyLeaf,
     DElem.nodeElem "Status"
       [DElem.leafElem "Enabled" (some 2) emptyLeaf,
        DElem.leafElem "Code" none emptyLeaf]]

/-- Witness for `requestRecordProcessing_notifies`: on the Motor1 scenario
tree the processing request notifies exactly connectors 1 and 2, once each,
and the unbound leaf produces no notification. -/
theorem requestRecordProcessing_notifies_witness :
    requestRecordProcessing motorTree ProcessReason.incomingData
      = [(1, ProcessReason.incomingData), (2, ProcessReason.incomingData)] := by
  have h := (requestRecordProcessing_notifies "" 0 emptyLeaf
    twoStampUpdate ProcessReason.incomingData).1 motorTree
  rw [h]
  simp [motorTree, specBoundConnectors, specBoundConnectorsList]

end DevOpcua
